import Mathlib

/-!
# Verification of `export.py` (Diigo → raindrop.io CSV exporter)

A shallow embedding of the single source file `src/export.py` of the
repository `diigo-export-to-csv`, together with theorems settling the
frozen claims about its specification.

The embedding follows the Python source line by line:

* `Creds`, `Bookmark`, `to_raindrop_io_csv_row` — the dataclasses and the
  pure row transformer (lines 20–67);
* `ApiException`, `apiRequestResponse`, `apiRequestParams` — the HTTP
  request helper `api_request` (lines 70–84), split into its two pure
  parts: the `assert 'key' not in params` / key-injection step and the
  status-code dispatch on the received response;
* `decodeBookmark` / `decodeBookmarks` — the per-record decoding loop of
  `get_bookmarks` (lines 87–123), with the `assert`s and the possible
  `ValueError` from `strptime` modelled as an explicit `ValidationError`;
* `strptimeDiigo` / `isoformat` — the semantics of
  `datetime.strptime(s, '%Y/%m/%d %H:%M:%S %z')` and
  `datetime.isoformat()` from the Python standard library, as used on
  lines 101 and 66, restricted to this fixed format string (CPython's
  `_strptime` regular expressions for `%Y %m %d %H %M %S %z`, the
  whole-string match requirement, and the range validation performed by
  the `datetime`/`timezone` constructors; `\s+` whitespace is modelled
  over the ASCII whitespace characters);
* `pySplit` — Python's `str.split(',')` (line 105);
* `buildAnns` — the annotations-dictionary construction loop
  (lines 108–113), with the insertion-ordered Python `dict` modelled as
  an association list;
* `page`, `fetchPagesFuel`, `fetchAll` — the pagination loop of `main`
  (lines 134–142), with the remote API modelled as serving a fixed list
  of records: the request with parameters `start`, `count` returns the
  slice `records[start : start+count]`.
-/

namespace DiigoExport

/-- Page size used by `main` (line 15 of `export.py`). -/
def CHUNK_SIZE : Nat := 100

/-- The `strptime` format string (line 17 of `export.py`). -/
def DIIGO_DATETIME_FORMAT : String := "%Y/%m/%d %H:%M:%S %z"

/-- The `Creds` dataclass (lines 20–24). -/
structure Creds where
  username : String
  password : String
  api_key : String
deriving DecidableEq

/-- An aware `datetime.datetime` as produced by
`datetime.strptime(_, '%Y/%m/%d %H:%M:%S %z')`: a calendar date, a
wall-clock time (the `%f`-less format always leaves `microsecond = 0`) and
a UTC offset stored in microseconds (the `timezone`'s `timedelta`). -/
structure DateTime where
  year : Nat
  month : Nat
  day : Nat
  hour : Nat
  minute : Nat
  second : Nat
  offMicros : Int
deriving DecidableEq

/-- Zero-padding to two digits, as in `%02d`. -/
def pad2 (n : Nat) : String :=
  if n < 10 then "0" ++ toString n else toString n

/-- Zero-padding to four digits, as in `%04d`. -/
def pad4 (n : Nat) : String :=
  if n < 10 then "000" ++ toString n
  else if n < 100 then "00" ++ toString n
  else if n < 1000 then "0" ++ toString n
  else toString n

/-- Zero-padding to six digits, as in `%06d`. -/
def pad6 (n : Nat) : String :=
  if n < 10 then "00000" ++ toString n
  else if n < 100 then "0000" ++ toString n
  else if n < 1000 then "000" ++ toString n
  else if n < 10000 then "00" ++ toString n
  else if n < 100000 then "0" ++ toString n
  else toString n

/-- Rendering of a UTC offset by `datetime.isoformat`: sign, `HH:MM`,
`:SS` only when the offset has a sub-minute part, `.ffffff` only when it
has a sub-second part (CPython `datetime._format_offset`). -/
def renderOffset (off : Int) : String :=
  let sign := if off < 0 then "-" else "+"
  let a := off.natAbs
  let us := a % 1000000
  let totSec := a / 1000000
  let ss := totSec % 60
  let mins := totSec / 60
  let mm := mins % 60
  let hh := mins / 60
  sign ++ pad2 hh ++ ":" ++ pad2 mm
    ++ (if ss != 0 || us != 0 then ":" ++ pad2 ss else "")
    ++ (if us != 0 then "." ++ pad6 us else "")

/-- `datetime.isoformat()` on an aware datetime with `microsecond = 0`:
`YYYY-MM-DDTHH:MM:SS` followed by the rendered UTC offset (line 66 of
`export.py` calls this on the parsed `created_at`). -/
def isoformat (dt : DateTime) : String :=
  pad4 dt.year ++ "-" ++ pad2 dt.month ++ "-" ++ pad2 dt.day ++ "T"
    ++ pad2 dt.hour ++ ":" ++ pad2 dt.minute ++ ":" ++ pad2 dt.second
    ++ renderOffset dt.offMicros

/-- Numeric value of a decimal digit character. -/
def digitVal (c : Char) : Nat := c.toNat - 48

/-- One field of CPython's `_strptime` regular expression of the shape
`⟨two-digit alternatives⟩|⟨one-digit alternative⟩` (used for `%m %d %H %M
%S`): try the two-digit alternatives first, fall back to a single digit.
Because every such field in the format `%Y/%m/%d %H:%M:%S %z` is followed
by a non-digit literal (or whitespace), this greedy choice agrees with the
backtracking regular-expression semantics. -/
def parse2or1 (valid2 : Nat → Bool) (valid1 : Nat → Bool) :
    List Char → Option (Nat × List Char)
  | c1 :: c2 :: rest =>
    if c1.isDigit && c2.isDigit && valid2 (digitVal c1 * 10 + digitVal c2) then
      some (digitVal c1 * 10 + digitVal c2, rest)
    else if c1.isDigit && valid1 (digitVal c1) then
      some (digitVal c1, c2 :: rest)
    else none
  | [c1] =>
    if c1.isDigit && valid1 (digitVal c1) then some (digitVal c1, []) else none
  | [] => none

/-- `%Y`: exactly four decimal digits (`\d\d\d\d`). -/
def parse4 : List Char → Option (Nat × List Char)
  | c1 :: c2 :: c3 :: c4 :: rest =>
    if c1.isDigit && c2.isDigit && c3.isDigit && c4.isDigit then
      some (((digitVal c1 * 10 + digitVal c2) * 10 + digitVal c3) * 10
              + digitVal c4, rest)
    else none
  | _ => none

/-- A single literal character of the format string. -/
def parseLit (c : Char) : List Char → Option (List Char)
  | d :: rest => if d = c then some rest else none
  | [] => none

/-- Python's `\s` on the ASCII range (whitespace in a `strptime` format is
compiled to `\s+`). -/
def isPySpace (c : Char) : Bool :=
  c = ' ' || c = '\t' || c = '\n' || c = '\r' || c = '\x0b' || c = '\x0c'

/-- `\s+`: one or more whitespace characters.  The following token in this
format is a digit or a sign, never whitespace, so the greedy consumption
agrees with the regular-expression semantics. -/
def parseSpaces : List Char → Option (List Char)
  | c :: rest =>
    if isPySpace c then some (rest.dropWhile (fun d => isPySpace d)) else none
  | [] => none

/-- Two digits the first of which is at most 5 (`[0-5]\d`), used for the
minutes and seconds of a `%z` offset. -/
def parseMM : List Char → Option (Nat × List Char)
  | a :: b :: rest =>
    if a.isDigit && digitVal a ≤ 5 && b.isDigit then
      some (digitVal a * 10 + digitVal b, rest)
    else none
  | _ => none

/-- Take up to `k` leading digits. -/
def takeDigits : Nat → List Char → List Char × List Char
  | 0, l => ([], l)
  | _ + 1, [] => ([], [])
  | k + 1, c :: rest =>
    if c.isDigit then
      let r := takeDigits k rest
      (c :: r.1, r.2)
    else ([], c :: rest)

/-- Decimal value of a digit string. -/
def digitsVal (l : List Char) : Nat :=
  l.foldl (fun a c => a * 10 + digitVal c) 0

def pow10 : Nat → Nat
  | 0 => 1
  | n + 1 => 10 * pow10 n

/-- Total offset in microseconds from the parsed pieces of a `%z` field
(CPython computes `gmtoff` in seconds plus `gmtoff_fraction` microseconds
and negates both for a `-` sign). -/
def mkOff (neg : Bool) (hh mm ss frac : Nat) : Int :=
  let a : Int := ((hh * 3600 + mm * 60 + ss) * 1000000 + frac : Nat)
  if neg then -a else a

/-- The `%z` field after the sign: `\d\d:?[0-5]\d(:?[0-5]\d(\.\d{1,6})?)?`
together with CPython's post-match consistency rule that the seconds part
uses a `:` separator exactly when the minutes part does (an inconsistent
offset string raises `ValueError`, which here surfaces as unconsumed
input, hence a failed parse, since `%z` ends the format). -/
def parseTZTail (neg : Bool) (l : List Char) : Option (Int × List Char) :=
  match l with
  | h1 :: h2 :: rest2 =>
    if h1.isDigit && h2.isDigit then
      let hh := digitVal h1 * 10 + digitVal h2
      let c1 : Bool := match rest2 with | ':' :: _ => true | _ => false
      let rest3 := if c1 then rest2.tail else rest2
      match parseMM rest3 with
      | none => none
      | some (mm, rest4) =>
        let secPart : Option (Nat × List Char) :=
          if c1 then
            match rest4 with
            | ':' :: rest5 => parseMM rest5
            | _ => none
          else
            match rest4 with
            | ':' :: _ => none
            | _ => parseMM rest4
        match secPart with
        | some (ss, rest5) =>
          match rest5 with
          | '.' :: rest6 =>
            let fr := takeDigits 6 rest6
            if fr.1.length = 0 then
              some (mkOff neg hh mm ss 0, '.' :: rest6)
            else
              some (mkOff neg hh mm ss (digitsVal fr.1 * pow10 (6 - fr.1.length)),
                    fr.2)
          | _ => some (mkOff neg hh mm ss 0, rest5)
        | none => some (mkOff neg hh mm 0 0, rest4)
    else none
  | _ => none

/-- `%z`: `[+-]\d\d:?[0-5]\d(:?[0-5]\d(\.\d{1,6})?)?|Z`, returning the
offset in microseconds. -/
def parseTZ : List Char → Option (Int × List Char)
  | 'Z' :: rest => some (0, rest)
  | '+' :: rest => parseTZTail false rest
  | '-' :: rest => parseTZTail true rest
  | _ => none

/-- Leap-year rule of the proleptic Gregorian calendar used by
`datetime`. -/
def isLeap (y : Nat) : Bool :=
  (y % 4 == 0 && y % 100 != 0) || y % 400 == 0

/-- Days in a month, as validated by the `datetime` constructor. -/
def daysInMonth (y m : Nat) : Nat :=
  if m = 2 then (if isLeap y then 29 else 28)
  else if m = 4 || m = 6 || m = 9 || m = 11 then 30
  else 31

/-- `datetime.strptime(s, '%Y/%m/%d %H:%M:%S %z')`: CPython compiles the
format to the anchored regular expression
`(\d\d\d\d)/(1[0-2]|0[1-9]|[1-9])/(3[01]|[1-2]\d|0[1-9]|[1-9])\s+`
`(2[0-3]|[0-1]\d|\d):([0-5]\d|\d):(6[0-1]|[0-5]\d|\d)\s+(%z)`,
requires the match to consume the whole string, and then builds
`datetime(year, month, day, hour, minute, second, tzinfo=timezone(off))`,
whose constructors reject year 0, an out-of-range day for the month, a
second of 60/61, and an offset not strictly between ±24 hours.  Any
failure raises `ValueError`; here it is `none`. -/
def strptimeDiigo (s : String) : Option DateTime := do
  let l0 := s.data
  let (y, l1) ← parse4 l0
  let l2 ← parseLit '/' l1
  let (mo, l3) ← parse2or1 (fun v => 1 ≤ v && v ≤ 12) (fun v => 1 ≤ v) l2
  let l4 ← parseLit '/' l3
  let (d, l5) ← parse2or1 (fun v => 1 ≤ v && v ≤ 31) (fun v => 1 ≤ v) l4
  let l6 ← parseSpaces l5
  let (h, l7) ← parse2or1 (fun v => v ≤ 23) (fun _ => true) l6
  let l8 ← parseLit ':' l7
  let (mi, l9) ← parse2or1 (fun v => v ≤ 59) (fun _ => true) l8
  let l10 ← parseLit ':' l9
  let (se, l11) ← parse2or1 (fun v => v ≤ 61) (fun _ => true) l10
  let l12 ← parseSpaces l11
  let (off, l13) ← parseTZ l12
  if l13 = [] && 1 ≤ y && d ≤ daysInMonth y mo && se ≤ 59
      && off.natAbs < 86400000000 then
    some { year := y, month := mo, day := d, hour := h, minute := mi,
           second := se, offMicros := off }
  else none

/-- The `Bookmark` dataclass (lines 27–36).  The Python `private` field is
named `priv` here (`private` is a Lean keyword); the insertion-ordered
`dict[str, list[str]]` of annotations is an association list in insertion
order. -/
structure Bookmark where
  url : String
  title : String
  description : String
  tags : List String
  created_at : DateTime
  read_later : Bool
  priv : Bool
  annotations : List (String × List String)
deriving DecidableEq

/-- The six-field CSV row produced by `to_raindrop_io_csv_row`
(`RAINDROP_IO_FIELDNAMES`, lines 39 and 60–67). -/
structure Row where
  url : String
  folder : String
  title : String
  note : String
  tags : String
  created : String
deriving DecidableEq

/-- `'>' + annotation.replace('\n\n', '\n> \n')` (line 57). -/
def quoteAnn (a : String) : String :=
  ">" ++ a.replace "\n\n" "\n> \n"

/-- `Bookmark.to_raindrop_io_csv_row` (lines 41–67), field by field:
folder synthesis from the two flags, the three-way tags rendering
(`self.tags[0]` in the singleton branch is written `headD ""`, total on
the list whose length is 1), the note accumulation over annotations and
their comments, and `created_at.isoformat()`. -/
def to_raindrop_io_csv_row (b : Bookmark) : Row :=
  let folder0 := "Diigo Import"
  let folder1 := if b.read_later then folder0 ++ "/Read Later" else folder0
  let folder := if b.priv then folder1 ++ "/Private" else folder1
  let tags :=
    if b.tags.length = 1 then b.tags.headD ""
    else if b.tags.length > 1 then
      "\"" ++ String.intercalate ", " b.tags ++ "\""
    else ""
  let note :=
    if b.annotations.isEmpty then b.description
    else
      b.annotations.foldl
        (fun acc p =>
          let quoted := quoteAnn p.1
          p.2.foldl (fun acc2 c => acc2 ++ "\n " ++ quoted ++ "\n\n" ++ c ++ "\n")
            acc)
        (b.description ++ "\n\nAnnotations:")
  { url := b.url, folder := folder, title := b.title, note := note,
    tags := tags, created := isoformat b.created_at }

/-- `ApiException` (lines 70–72): constructed from the response's status
code and body text. -/
structure ApiException where
  status_code : Nat
  text : String
deriving DecidableEq

/-- The message the exception is constructed with:
`f'HTTP {status_code}: {text}'`. -/
def ApiException.message (e : ApiException) : String :=
  "HTTP " ++ toString e.status_code ++ ": " ++ e.text

/-- An HTTP response as seen by `api_request`: status code, body text,
and the value `response.json()` would produce. -/
structure HttpResponse (α : Type) where
  status_code : Nat
  text : String
  body : α

/-- The response handling of `api_request` (lines 80–84): return the JSON
body when `status_code == 200`, otherwise raise
`ApiException(status_code, text)`.  There is no retry: the function is
called once per page and the exception propagates. -/
def apiRequestResponse {α : Type} (resp : HttpResponse α) :
    Except ApiException α :=
  if resp.status_code = 200 then .ok resp.body
  else .error { status_code := resp.status_code, text := resp.text }

/-- The parameter handling of `api_request` (lines 77–78):
`assert 'key' not in params` (modelled as `none` on failure), then
`params = {'key': creds.api_key, **params}`, which puts the key entry
first. -/
def apiRequestParams (params : List (String × String)) (creds : Creds) :
    Option (List (String × String)) :=
  if params.any (fun p => p.1 == "key") then none
  else some (("key", creds.api_key) :: params)

/-- The query parameters built by `get_bookmarks` (lines 88–93). -/
def getBookmarksParams (creds : Creds) (start count : Nat) :
    List (String × String) :=
  [("user", creds.username), ("start", toString start),
   ("count", toString count), ("filter", "all")]

/-- Python's `str.split(sep)` for a one-character separator: never empty,
`''.split(',') == ['']`. -/
def pySplit (sep : Char) : List Char → List (List Char)
  | [] => [[]]
  | c :: rest =>
    match pySplit sep rest with
    | [] => [[]]
    | g :: gs => if c = sep then [] :: g :: gs else (c :: g) :: gs

/-- `bookmark_obj['tags'].split(',')` (line 105). -/
def splitTags (s : String) : List String :=
  (pySplit ',' s.data).map (fun l => String.mk l)

/-- The fatal decode failures of `get_bookmarks` (spec §7 taxonomy (c)):
the four `assert`s on lines 97–100 and the `ValueError` that
`datetime.strptime` raises on line 101. -/
inductive ValidationError where
  | nonEmptyComments
  | quoteInTags
  | badShared
  | badReadlater
  | badTimestamp
deriving DecidableEq

/-- One raw annotation object of the API response:
`{content, comments: [{content}]}`, with each comment reduced to its
`content` string (line 112). -/
structure RawAnn where
  content : String
  comments : List String
deriving DecidableEq

/-- One raw bookmark object of the JSON response, with the fields
`get_bookmarks` reads (lines 97–109). -/
structure RawBookmark where
  url : String
  title : String
  desc : String
  tags : String
  created_at : String
  readlater : String
  shared : String
  comments : List String
  annotations : List RawAnn
deriving DecidableEq

/-- One step of the annotations-dictionary loop (lines 111–113):
`annotations[annotation] = annotations.get(annotation, []) + comments`.
On an insertion-ordered `dict`, assigning to an existing key updates it in
place; a new key is appended. -/
def insertAnn (m : List (String × List String)) (k : String)
    (cs : List String) : List (String × List String) :=
  if m.any (fun p => p.1 == k) then
    m.map (fun p => if p.1 == k then (p.1, p.2 ++ cs) else p)
  else m ++ [(k, cs)]

/-- The annotations dictionary built by the loop on lines 108–113. -/
def buildAnns (anns : List RawAnn) : List (String × List String) :=
  anns.foldl (fun m a => insertAnn m a.content a.comments) []

/-- Decoding of one raw bookmark object into a `Bookmark`
(lines 97–122): the four `assert`s in source order, then the `strptime`
call, then the field extraction. -/
def decodeBookmark (r : RawBookmark) : Except ValidationError Bookmark :=
  if r.comments ≠ [] then .error .nonEmptyComments
  else if '"' ∈ r.tags.data then .error .quoteInTags
  else if r.shared ∉ (["yes", "no"] : List String) then .error .badShared
  else if r.readlater ∉ (["yes", "no"] : List String) then .error .badReadlater
  else
    match strptimeDiigo r.created_at with
    | none => .error .badTimestamp
    | some dt =>
      .ok { url := r.url, title := r.title, description := r.desc,
            tags := splitTags r.tags, created_at := dt,
            read_later := r.readlater == "yes", priv := r.shared == "no",
            annotations := buildAnns r.annotations }

/-- The decoding loop of `get_bookmarks` over one page of raw objects
(lines 95–123): the first failing record aborts the whole call. -/
def decodeBookmarks : List RawBookmark → Except ValidationError (List Bookmark)
  | [] => .ok []
  | r :: rest =>
    match decodeBookmark r with
    | .error e => .error e
    | .ok b =>
      match decodeBookmarks rest with
      | .error e => .error e
      | .ok bs => .ok (b :: bs)

/-- The page of records the source API serves for a request with offset
`start` and page size `count`, when it holds the list `L` of records:
the slice `L[start : start+count]`. -/
def page {α : Type} (L : List α) (start count : Nat) : List α :=
  (L.drop start).take count

/-- The `while True` pagination loop of `main` (lines 134–142), with
explicit fuel (the loop body: request the page at `start`; an empty page
breaks, a non-empty page is appended and `start` advances by the page
size).  Returns the accumulated records and the number of page requests
issued.  With fuel `0` no request is made; `fetchAll` supplies enough
fuel for the loop to reach its break. -/
def fetchPagesFuel {α : Type} (L : List α) (P : Nat) :
    Nat → Nat → List α × Nat
  | _, 0 => ([], 0)
  | start, fuel + 1 =>
    let chunk := page L start P
    if chunk.isEmpty then ([], 1)
    else
      let r := fetchPagesFuel L P (start + P) fuel
      (chunk ++ r.1, r.2 + 1)

/-- The whole fetch of `main` against a source holding the record list
`L`, with page size `P`: run the loop from `start = 0`.  `L.length + 1`
units of fuel are enough for every positive `P` (proved below). -/
def fetchAll {α : Type} (L : List α) (P : Nat) : List α × Nat :=
  fetchPagesFuel L P 0 (L.length + 1)

/-! ## String helpers -/

theorem str_append_mk (a b : String) : a ++ b = String.mk (a.data ++ b.data) :=
  rfl

theorem str_append_assoc (a b c : String) : a ++ b ++ c = a ++ (b ++ c) := by
  rw [str_append_mk a b, str_append_mk, str_append_mk b c, str_append_mk]
  exact congrArg String.mk (List.append_assoc a.data b.data c.data)

/-- Concatenation of a list of strings, used to state the note-rendering
claim in closed form. -/
def strConcat : List String → String
  | [] => ""
  | s :: rest => s ++ strConcat rest

theorem foldl_append_strConcat {α : Type} (f : α → String) :
    ∀ (l : List α) (acc : String),
      l.foldl (fun a x => a ++ f x) acc = acc ++ strConcat (l.map f)
  | [], acc => by simp [strConcat]
  | x :: rest, acc => by
    rw [List.foldl_cons, foldl_append_strConcat f rest, List.map_cons]
    show acc ++ f x ++ strConcat (rest.map f) = _
    rw [str_append_assoc]
    rfl

/-! ## Claims about the transformer -/

/-- **C6**. For every `Bookmark`, the `folder` field of the transformed
row is exactly one of four values determined by the two flags:
`"Diigo Import"` when `read_later = false` and `private = false`;
`"Diigo Import/Read Later"` when `read_later = true, private = false`;
`"Diigo Import/Private"` when `read_later = false, private = true`;
`"Diigo Import/Read Later/Private"` when both are true. -/
theorem c6_folder_synthesis (b : Bookmark) :
    (to_raindrop_io_csv_row b).folder =
      if b.read_later then
        (if b.priv then "Diigo Import/Read Later/Private"
         else "Diigo Import/Read Later")
      else
        (if b.priv then "Diigo Import/Private" else "Diigo Import") := by
  cases hr : b.read_later <;> cases hp : b.priv <;>
    simp only [to_raindrop_io_csv_row, hr, hp, if_true, if_false] <;> decide

/-- **C7**. For every `Bookmark`, the `tags` field of the transformed row
is the empty string when the tags list is empty, the single tag verbatim
when the list has exactly one element, and otherwise the tags joined with
`", "` wrapped in double quotes. -/
theorem c7_tags_rendering (b : Bookmark) :
    (to_raindrop_io_csv_row b).tags =
      match b.tags with
      | [] => ""
      | [t] => t
      | ts => "\"" ++ String.intercalate ", " ts ++ "\"" := by
  match hts : b.tags with
  | [] => simp [to_raindrop_io_csv_row, hts]
  | [t] => simp [to_raindrop_io_csv_row, hts]
  | t1 :: t2 :: ts => simp [to_raindrop_io_csv_row, hts]

/-- **C3**. For every `Bookmark`, the `note` field of the transformed row
equals the description exactly when the annotations mapping is empty;
when it is non-empty, the note is the description, followed by the
literal `"\n\nAnnotations:"` header exactly once, then for each
annotation in mapping order the quoted annotation (`>` prefix, every
internal `"\n\n"` replaced by `"\n> \n"`) re-emitted once per comment in
list order as a block `"\n " ++ quoted ++ "\n\n" ++ comment ++ "\n"` (so
one annotation with two comments reproduces the quoted annotation exactly
twice). -/
theorem c3_note_rendering (b : Bookmark) :
    (to_raindrop_io_csv_row b).note =
      if b.annotations = [] then b.description
      else
        b.description ++ "\n\nAnnotations:" ++
          strConcat (b.annotations.map (fun p =>
            strConcat (p.2.map (fun c =>
              "\n " ++ quoteAnn p.1 ++ "\n\n" ++ c ++ "\n")))) := by
  show (if b.annotations.isEmpty then b.description else _) = _
  match hann : b.annotations with
  | [] => simp
  | q :: qs =>
    simp only [List.isEmpty_cons, if_false, reduceCtorEq]
    have hinner : ∀ (p : String × List String) (acc : String),
        p.2.foldl (fun acc2 c =>
            acc2 ++ "\n " ++ quoteAnn p.1 ++ "\n\n" ++ c ++ "\n") acc
          = acc ++ strConcat (p.2.map (fun c =>
              "\n " ++ quoteAnn p.1 ++ "\n\n" ++ c ++ "\n")) := by
      intro p acc
      rw [← foldl_append_strConcat]
      apply List.foldl_ext
      intro a x _
      simp only [str_append_assoc]
    have houter : ∀ (l : List (String × List String)) (acc : String),
        l.foldl (fun acc p =>
            p.2.foldl (fun acc2 c =>
              acc2 ++ "\n " ++ quoteAnn p.1 ++ "\n\n" ++ c ++ "\n") acc) acc
          = acc ++ strConcat (l.map (fun p =>
              strConcat (p.2.map (fun c =>
                "\n " ++ quoteAnn p.1 ++ "\n\n" ++ c ++ "\n")))) := by
      intro l acc
      rw [← foldl_append_strConcat]
      apply List.foldl_ext
      intro a x _
      exact hinner x a
    rw [houter]

/-! ## Claims about the decoder -/

/-- The decode invariants the claims are about: the four `assert`ed
conditions of lines 97–100 (in the claims' order: unrecognized `shared`
or `readlater` value, a literal `"` in the raw tags string, a non-empty
bookmark-level comments list). -/
def violatesDecodeInvariant (r : RawBookmark) : Prop :=
  r.shared ∉ (["yes", "no"] : List String) ∨
  r.readlater ∉ (["yes", "no"] : List String) ∨
  '"' ∈ r.tags.data ∨
  r.comments ≠ []

lemma decodeBookmark_error_of_violation (r : RawBookmark)
    (h : violatesDecodeInvariant r) : ∃ e, decodeBookmark r = .error e := by
  by_cases h1 : r.comments = []
  · by_cases h2 : '"' ∈ r.tags.data
    · exact ⟨.quoteInTags, by
        unfold decodeBookmark
        rw [if_neg (fun hc => hc h1), if_pos h2]⟩
    · by_cases h3 : r.shared ∈ (["yes", "no"] : List String)
      · by_cases h4 : r.readlater ∈ (["yes", "no"] : List String)
        · rcases h with h | h | h | h
          · exact absurd h3 h
          · exact absurd h4 h
          · exact absurd h h2
          · exact absurd h1 h
        · exact ⟨.badReadlater, by
            unfold decodeBookmark
            rw [if_neg (fun hc => hc h1), if_neg h2,
                if_neg (fun hc => hc h3), if_pos h4]⟩
      · exact ⟨.badShared, by
          unfold decodeBookmark
          rw [if_neg (fun hc => hc h1), if_neg h2, if_pos h3]⟩
  · exact ⟨.nonEmptyComments, by unfold decodeBookmark; rw [if_pos h1]⟩

lemma decodeBookmarks_error_of_mem :
    ∀ l : List RawBookmark, (∃ r ∈ l, violatesDecodeInvariant r) →
      ∃ e, decodeBookmarks l = .error e
  | [], ⟨r, hr, _⟩ => absurd hr (List.not_mem_nil r)
  | a :: rest, ⟨r, hr, hbad⟩ => by
    rcases List.mem_cons.mp hr with rfl | hr2
    · obtain ⟨e, he⟩ := decodeBookmark_error_of_violation r hbad
      exact ⟨e, by simp [decodeBookmarks, he]⟩
    · match hda : decodeBookmark a with
      | .error e1 => exact ⟨e1, by simp [decodeBookmarks, hda]⟩
      | .ok b =>
        obtain ⟨e, he⟩ := decodeBookmarks_error_of_mem rest ⟨r, hr2, hbad⟩
        exact ⟨e, by simp [decodeBookmarks, hda, he]⟩

/-- **C2**. Every fetched record that violates a decode invariant — an
unrecognized `shared` or `readlater` value (anything other than the two
recognized sentinels `"yes"`/`"no"`), a literal double quote in the raw
tags string, or a non-empty bookmark-level comments list — fails to
decode with a `ValidationError`, and that error aborts the decoding of
the whole response list (the whole export). -/
theorem c2_validation_aborts :
    (∀ r : RawBookmark, violatesDecodeInvariant r →
      ∃ e, decodeBookmark r = .error e) ∧
    (∀ l : List RawBookmark, (∃ r ∈ l, violatesDecodeInvariant r) →
      ∃ e, decodeBookmarks l = .error e) :=
  ⟨decodeBookmark_error_of_violation, decodeBookmarks_error_of_mem⟩

/-- A raw record with an unrecognized `shared` value (all other fields
well-formed). -/
def rawBadShared : RawBookmark :=
  { url := "u", title := "t", desc := "", tags := "a",
    created_at := "2024/11/14 05:48:28 +0000", readlater := "yes",
    shared := "maybe", comments := [], annotations := [] }

/-- Witness for C2 at the concrete record `rawBadShared`, also running the
whole-page decoder on the one-record page containing it. -/
theorem c2_validation_aborts_witness :
    violatesDecodeInvariant rawBadShared ∧
    (∃ e, decodeBookmark rawBadShared = .error e) ∧
    (∃ e, decodeBookmarks [rawBadShared] = .error e) :=
  ⟨by unfold violatesDecodeInvariant; decide,
   c2_validation_aborts.1 rawBadShared (by unfold violatesDecodeInvariant; decide),
   c2_validation_aborts.2 [rawBadShared]
     ⟨rawBadShared, List.mem_singleton.mpr rfl,
      by unfold violatesDecodeInvariant; decide⟩⟩

/-- The datetime parsed from the spec's example timestamp. -/
def exampleDT : DateTime :=
  { year := 2024, month := 11, day := 14, hour := 5, minute := 48,
    second := 28, offMicros := 0 }

lemma decodeBookmark_error_of_strptime_none (r : RawBookmark)
    (h : strptimeDiigo r.created_at = none) :
    ∃ e, decodeBookmark r = .error e := by
  by_cases h1 : r.comments = []
  · by_cases h2 : '"' ∈ r.tags.data
    · exact ⟨.quoteInTags, by
        unfold decodeBookmark
        rw [if_neg (fun hc => hc h1), if_pos h2]⟩
    · by_cases h3 : r.shared ∈ (["yes", "no"] : List String)
      · by_cases h4 : r.readlater ∈ (["yes", "no"] : List String)
        · exact ⟨.badTimestamp, by
            unfold decodeBookmark
            rw [if_neg (fun hc => hc h1), if_neg h2,
                if_neg (fun hc => hc h3), if_neg (fun hc => hc h4), h]⟩
        · exact ⟨.badReadlater, by
            unfold decodeBookmark
            rw [if_neg (fun hc => hc h1), if_neg h2,
                if_neg (fun hc => hc h3), if_pos h4]⟩
      · exact ⟨.badShared, by
          unfold decodeBookmark
          rw [if_neg (fun hc => hc h1), if_neg h2, if_pos h3]⟩
  · exact ⟨.nonEmptyComments, by unfold decodeBookmark; rw [if_pos h1]⟩

/-- **C5**. The creation timestamp is parsed with the fixed format
`'%Y/%m/%d %H:%M:%S %z'` (`strptimeDiigo` embeds exactly that format) and
rendered in the row's `created` field by `isoformat` as
`YYYY-MM-DDTHH:MM:SS±HH:MM`; in particular `"2024/11/14 05:48:28 +0000"`
parses and renders to `"2024-11-14T05:48:28+00:00"`, and a `created_at`
string the format does not accept makes the record's decode fail. -/
theorem c5_timestamp_parse_render :
    strptimeDiigo "2024/11/14 05:48:28 +0000" = some exampleDT ∧
    isoformat exampleDT = "2024-11-14T05:48:28+00:00" ∧
    (∀ b : Bookmark,
      (to_raindrop_io_csv_row b).created = isoformat b.created_at) ∧
    (∀ r : RawBookmark, strptimeDiigo r.created_at = none →
      ∃ e, decodeBookmark r = .error e) :=
  ⟨by decide, by decide, fun _ => rfl, decodeBookmark_error_of_strptime_none⟩

/-- A raw record whose `created_at` does not match the format (all other
fields well-formed). -/
def rawBadTimestamp : RawBookmark :=
  { url := "u", title := "t", desc := "", tags := "a",
    created_at := "14/11/2024 05:48:28", readlater := "yes",
    shared := "no", comments := [], annotations := [] }

/-- Witness for C5 at the concrete record `rawBadTimestamp`. -/
theorem c5_timestamp_parse_render_witness :
    strptimeDiigo rawBadTimestamp.created_at = none ∧
    (∃ e, decodeBookmark rawBadTimestamp = .error e) :=
  ⟨by decide,
   c5_timestamp_parse_render.2.2.2 rawBadTimestamp (by decide)⟩

/-! ## Claim about the annotations mapping -/

/-- First entry of the association list with the given key (the value a
Python `dict` lookup returns). -/
def lookupAnn (q : String) : List (String × List String) → Option (List String)
  | [] => none
  | p :: rest => if p.1 = q then some p.2 else lookupAnn q rest

/-- All comments attached to annotation text `q` across the raw
annotation list, concatenated in source order (per-annotation comment
order preserved). -/
def catComments (q : String) : List RawAnn → List String
  | [] => []
  | a :: rest => (if a.content = q then a.comments else []) ++ catComments q rest

/-- Deduplication keeping the first occurrence of each element — the key
order an insertion-ordered `dict` ends up with. -/
def dedupFirst (l : List String) : List String :=
  l.foldl (fun ks k => if k ∈ ks then ks else ks ++ [k]) []

lemma any_key_iff (m : List (String × List String)) (k : String) :
    m.any (fun p => p.1 == k) = true ↔ k ∈ m.map Prod.fst := by
  simp [List.any_eq_true, List.mem_map, beq_iff_eq]

lemma keys_insertAnn (m : List (String × List String)) (k : String)
    (cs : List String) :
    (insertAnn m k cs).map Prod.fst =
      if k ∈ m.map Prod.fst then m.map Prod.fst
      else m.map Prod.fst ++ [k] := by
  unfold insertAnn
  by_cases h : m.any (fun p => p.1 == k) = true
  · rw [if_pos h, if_pos ((any_key_iff m k).mp h), List.map_map]
    apply List.map_congr_left
    intro p _
    show (if p.1 == k then (p.1, p.2 ++ cs) else p).1 = p.1
    split <;> rfl
  · rw [if_neg h, if_neg (fun hk => h ((any_key_iff m k).mpr hk)),
       List.map_append]
    rfl

lemma lookupAnn_map_upd_ne (k : String) (cs : List String) (q : String)
    (hq : q ≠ k) :
    ∀ m : List (String × List String),
      lookupAnn q (m.map (fun p => if p.1 == k then (p.1, p.2 ++ cs) else p))
        = lookupAnn q m
  | [] => rfl
  | p :: rest => by
    rw [List.map_cons]
    by_cases hpk : p.1 = k
    · have h1 : (p.1 == k) = true := beq_iff_eq.mpr hpk
      have h2 : ¬(p.1 = q) := fun hc => hq (hc.symm.trans hpk)
      rw [if_pos h1]
      show (if p.1 = q then some (p.2 ++ cs) else _) = _
      rw [if_neg h2]
      show _ = (if p.1 = q then some p.2 else _)
      rw [if_neg h2, lookupAnn_map_upd_ne k cs q hq rest]
    · have h1 : ¬((p.1 == k) = true) := fun hc => hpk (beq_iff_eq.mp hc)
      rw [if_neg h1]
      show (if p.1 = q then some p.2 else _) = (if p.1 = q then some p.2 else _)
      by_cases hpq : p.1 = q
      · rw [if_pos hpq, if_pos hpq]
      · rw [if_neg hpq, if_neg hpq, lookupAnn_map_upd_ne k cs q hq rest]

lemma lookupAnn_map_upd_eq (k : String) (cs : List String) :
    ∀ m : List (String × List String),
      m.any (fun p => p.1 == k) = true →
      lookupAnn k (m.map (fun p => if p.1 == k then (p.1, p.2 ++ cs) else p))
        = some ((lookupAnn k m).getD [] ++ cs)
  | p :: rest, hany => by
    rw [List.map_cons]
    by_cases hpk : p.1 = k
    · have h1 : (p.1 == k) = true := beq_iff_eq.mpr hpk
      rw [if_pos h1]
      show (if p.1 = k then some (p.2 ++ cs) else _) = _
      rw [if_pos hpk]
      show _ = some ((if p.1 = k then some p.2 else _).getD [] ++ cs)
      rw [if_pos hpk]
      rfl
    · have h1 : ¬((p.1 == k) = true) := fun hc => hpk (beq_iff_eq.mp hc)
      have hrest : rest.any (fun p => p.1 == k) = true := by
        rw [List.any_cons] at hany
        rcases Bool.or_eq_true_iff.mp hany with hc | hc
        · exact absurd hc h1
        · exact hc
      rw [if_neg h1]
      show (if p.1 = k then some p.2 else _) = _
      rw [if_neg hpk]
      show _ = some ((if p.1 = k then some p.2 else _).getD [] ++ cs)
      rw [if_neg hpk, lookupAnn_map_upd_eq k cs rest hrest]

lemma lookupAnn_append_single (q k : String) (cs : List String) :
    ∀ m : List (String × List String),
      lookupAnn q (m ++ [(k, cs)]) =
        match lookupAnn q m with
        | some v => some v
        | none => if q = k then some cs else none
  | [] => by
    show (if k = q then some cs else none) = (if q = k then some cs else none)
    by_cases h : q = k
    · rw [if_pos h.symm, if_pos h]
    · rw [if_neg (fun hc => h hc.symm), if_neg h]
  | p :: rest => by
    show (if p.1 = q then some p.2 else lookupAnn q (rest ++ [(k, cs)]))
      = (match (if p.1 = q then some p.2 else lookupAnn q rest) with
          | some v => some v
          | none => if q = k then some cs else none)
    by_cases hpq : p.1 = q
    · rw [if_pos hpq, if_pos hpq]
    · rw [if_neg hpq, if_neg hpq, lookupAnn_append_single q k cs rest]

lemma lookupAnn_none_of_not_any (k : String) :
    ∀ m : List (String × List String),
      m.any (fun p => p.1 == k) = false → lookupAnn k m = none
  | [], _ => rfl
  | p :: rest, h => by
    rw [List.any_cons, Bool.or_eq_false_iff] at h
    have hpk : ¬(p.1 = k) := fun hc => by
      rw [hc, beq_self_eq_true] at h
      exact Bool.noConfusion h.1
    show (if p.1 = k then some p.2 else _) = none
    rw [if_neg hpk, lookupAnn_none_of_not_any k rest h.2]

lemma lookupAnn_insertAnn (q k : String) (cs : List String)
    (m : List (String × List String)) :
    lookupAnn q (insertAnn m k cs) =
      if q = k then some ((lookupAnn q m).getD [] ++ cs)
      else lookupAnn q m := by
  unfold insertAnn
  by_cases hany : m.any (fun p => p.1 == k) = true
  · rw [if_pos hany]
    by_cases hq : q = k
    · rw [if_pos hq, hq, lookupAnn_map_upd_eq k cs m hany]
    · rw [if_neg hq, lookupAnn_map_upd_ne k cs q hq m]
  · rw [if_neg hany, lookupAnn_append_single q k cs m]
    have hfalse : m.any (fun p => p.1 == k) = false :=
      Bool.eq_false_iff.mpr hany
    by_cases hq : q = k
    · have hknone : lookupAnn k m = none :=
        lookupAnn_none_of_not_any k m hfalse
      simp [hq, hknone]
    · cases hl : lookupAnn q m
      · simp [hq]
      · simp [hq]

lemma keys_buildAux :
    ∀ (anns : List RawAnn) (acc : List (String × List String)),
      ((anns.foldl (fun m a => insertAnn m a.content a.comments) acc).map
          Prod.fst)
        = (anns.map (fun a => a.content)).foldl
            (fun ks k => if k ∈ ks then ks else ks ++ [k]) (acc.map Prod.fst)
  | [], _ => rfl
  | a :: anns, acc => by
    rw [List.foldl_cons, keys_buildAux anns (insertAnn acc a.content a.comments),
        keys_insertAnn, List.map_cons, List.foldl_cons]

lemma lookupAnn_buildAux :
    ∀ (anns : List RawAnn) (acc : List (String × List String)) (q : String),
      lookupAnn q (anns.foldl (fun m a => insertAnn m a.content a.comments) acc)
        = if (lookupAnn q acc).isSome = true ∨ q ∈ anns.map (fun a => a.content)
          then some ((lookupAnn q acc).getD [] ++ catComments q anns)
          else none
  | [], acc, q => by
    cases hl : lookupAnn q acc
    · simp [hl]
    · simp [hl, catComments]
  | a :: anns, acc, q => by
    rw [List.foldl_cons,
        lookupAnn_buildAux anns (insertAnn acc a.content a.comments) q,
        lookupAnn_insertAnn]
    by_cases hq : q = a.content
    · rw [if_pos hq]
      have hmem : q ∈ (a :: anns).map (fun a => a.content) := by
        rw [List.map_cons, hq]
        exact List.mem_cons_self _ _
      have hcat : catComments q (a :: anns) = a.comments ++ catComments q anns := by
        show (if a.content = q then a.comments else []) ++ _ = _
        rw [if_pos hq.symm]
      have hcond1 : (some ((lookupAnn q acc).getD [] ++ a.comments)).isSome
            = true ∨ q ∈ anns.map (fun a => a.content) :=
        Or.inl rfl
      have hcond2 : (lookupAnn q acc).isSome = true ∨
          q ∈ (a :: anns).map (fun a => a.content) :=
        Or.inr hmem
      rw [if_pos hcond1, if_pos hcond2, hcat, Option.getD_some,
          List.append_assoc]
    · rw [if_neg hq]
      have hcat : catComments q (a :: anns) = catComments q anns := by
        show (if a.content = q then a.comments else []) ++ _ = _
        rw [if_neg (fun hc => hq hc.symm), List.nil_append]
      have hmem : (q ∈ (a :: anns).map (fun a => a.content)) ↔
          (q ∈ anns.map (fun a => a.content)) := by
        rw [List.map_cons, List.mem_cons]
        constructor
        · rintro (hc | hc)
          · exact absurd hc hq
          · exact hc
        · exact Or.inr
      by_cases hcond : (lookupAnn q acc).isSome = true ∨
          q ∈ anns.map (fun a => a.content)
      · have hcond2 : (lookupAnn q acc).isSome = true ∨
            q ∈ (a :: anns).map (fun a => a.content) := by
          rcases hcond with h | h
          · exact Or.inl h
          · exact Or.inr (hmem.mpr h)
        rw [if_pos hcond, if_pos hcond2, hcat]
      · have hcond2 : ¬((lookupAnn q acc).isSome = true ∨
            q ∈ (a :: anns).map (fun a => a.content)) := by
          rintro (h | h)
          · exact hcond (Or.inl h)
          · exact hcond (Or.inr (hmem.mp h))
        rw [if_neg hcond, if_neg hcond2]

/-- **C8**. For every raw annotation list, the annotations mapping built
by `get_bookmarks` has its keys in first-seen order of the annotation
texts, and maps each text to the concatenation, in source order, of the
comment lists of all annotation objects bearing that text (so comments of
a repeated annotation text accumulate onto the existing entry, and a text
not present maps to nothing). -/
theorem c8_annotations_merge (anns : List RawAnn) :
    ((buildAnns anns).map Prod.fst
        = dedupFirst (anns.map (fun a => a.content)))
    ∧ ∀ q : String,
        lookupAnn q (buildAnns anns) =
          if q ∈ anns.map (fun a => a.content)
          then some (catComments q anns)
          else none := by
  constructor
  · exact keys_buildAux anns []
  · intro q
    rw [buildAnns, lookupAnn_buildAux anns [] q]
    have h0 : lookupAnn q ([] : List (String × List String)) = none := rfl
    rw [h0]
    simp only [Option.isSome_none, Option.getD_none, Bool.false_eq_true,
               false_or, List.nil_append]

/-! ## Claim about API-key injection -/

/-- **C9**. For every API request, the key-injection step succeeds (the
assertion branch is unreachable) whenever the caller-supplied parameter
map has no `"key"` entry, and the sent parameters then contain the
credentials' API key; moreover the one caller, `get_bookmarks`, indeed
never passes a `"key"` parameter. -/
theorem c9_api_key_injection :
    (∀ (params : List (String × String)) (creds : Creds),
        (∀ p ∈ params, p.1 ≠ "key") →
        ∃ sent, apiRequestParams params creds = some sent ∧
          ("key", creds.api_key) ∈ sent) ∧
    (∀ (creds : Creds) (start count : Nat),
        ∀ p ∈ getBookmarksParams creds start count, p.1 ≠ "key") := by
  constructor
  · intro params creds h
    have hfalse : ¬(params.any (fun p => p.1 == "key") = true) := by
      intro hc
      rcases List.any_eq_true.mp hc with ⟨p, hp, hpk⟩
      exact h p hp (beq_iff_eq.mp hpk)
    refine ⟨("key", creds.api_key) :: params, ?_, List.mem_cons_self _ _⟩
    unfold apiRequestParams
    rw [if_neg hfalse]
  · intro creds start count p hp
    simp only [getBookmarksParams, List.mem_cons, List.not_mem_nil,
               or_false] at hp
    rcases hp with rfl | rfl | rfl | rfl
    · show ("user" : String) ≠ "key"
      decide
    · show ("start" : String) ≠ "key"
      decide
    · show ("count" : String) ≠ "key"
      decide
    · show ("filter" : String) ≠ "key"
      decide

/-- Witness for C9 at a concrete parameter list and credentials. -/
theorem c9_api_key_injection_witness :
    (∀ p ∈ [(("user" : String), ("u" : String))], p.1 ≠ "key") ∧
    ∃ sent,
      apiRequestParams [("user", "u")]
          { username := "u", password := "pw", api_key := "k123" } = some sent ∧
      ("key", "k123") ∈ sent :=
  ⟨by decide,
   c9_api_key_injection.1 [("user", "u")]
     { username := "u", password := "pw", api_key := "k123" } (by decide)⟩

/-! ## Claim about the tags invariant -/

lemma pySplit_ne_nil (sep : Char) : ∀ l : List Char, pySplit sep l ≠ []
  | [] => fun hc => List.noConfusion hc
  | c :: rest => by
    unfold pySplit
    cases pySplit sep rest with
    | nil => exact fun hc => List.noConfusion hc
    | cons g gs =>
      show (if c = sep then [] :: g :: gs else (c :: g) :: gs) ≠ []
      by_cases hc : c = sep
      · rw [if_pos hc]
        exact fun hx => List.noConfusion hx
      · rw [if_neg hc]
        exact fun hx => List.noConfusion hx

lemma splitTags_ne_nil (s : String) : splitTags s ≠ [] := by
  unfold splitTags
  intro hc
  exact pySplit_ne_nil ',' s.data (List.map_eq_nil_iff.mp hc)

lemma decodeBookmark_ok_inv (r : RawBookmark) (b : Bookmark)
    (h : decodeBookmark r = .ok b) : b.tags = splitTags r.tags := by
  unfold decodeBookmark at h
  split at h
  · simp at h
  · split at h
    · simp at h
    · split at h
      · simp at h
      · split at h
        · simp at h
        · split at h
          · simp at h
          · injection h with h2
            rw [← h2]

/-- **C10**. Every successfully decoded record has a non-empty tags list
(Python's `split` never returns an empty list); a record whose raw tags
string is empty decodes to the one-element list `[""]`, whose row renders
the empty tags string through the single-tag branch — the zero-tags
branch is unreachable for decoder-produced bookmarks. -/
theorem c10_tags_nonempty :
    (∀ (r : RawBookmark) (b : Bookmark),
        decodeBookmark r = .ok b → b.tags ≠ []) ∧
    (∀ (r : RawBookmark) (b : Bookmark),
        decodeBookmark r = .ok b → r.tags = "" →
        b.tags = [""] ∧ (to_raindrop_io_csv_row b).tags = "") := by
  constructor
  · intro r b h
    rw [decodeBookmark_ok_inv r b h]
    exact splitTags_ne_nil r.tags
  · intro r b h htags
    have hbt : b.tags = [""] := by
      rw [decodeBookmark_ok_inv r b h, htags]
      rfl
    exact ⟨hbt, by simp [to_raindrop_io_csv_row, hbt]⟩

/-- A raw record with an empty raw tags string that decodes
successfully. -/
def rawEmptyTags : RawBookmark :=
  { url := "u", title := "t", desc := "", tags := "",
    created_at := "2024/11/14 05:48:28 +0000", readlater := "no",
    shared := "yes", comments := [], annotations := [] }

/-- The bookmark `rawEmptyTags` decodes to. -/
def bookmarkEmptyTags : Bookmark :=
  { url := "u", title := "t", description := "", tags := [""],
    created_at := exampleDT, read_later := false, priv := false,
    annotations := [] }

/-- Witness for C10 at the concrete record `rawEmptyTags`. -/
theorem c10_tags_nonempty_witness :
    decodeBookmark rawEmptyTags = .ok bookmarkEmptyTags ∧
    rawEmptyTags.tags = "" ∧
    bookmarkEmptyTags.tags ≠ [] ∧
    (bookmarkEmptyTags.tags = [""] ∧
      (to_raindrop_io_csv_row bookmarkEmptyTags).tags = "") :=
  ⟨rfl, rfl,
   c10_tags_nonempty.1 rawEmptyTags bookmarkEmptyTags rfl,
   c10_tags_nonempty.2 rawEmptyTags bookmarkEmptyTags rfl rfl⟩

/-! ## Claims about pagination and HTTP status handling -/

lemma ceil_div_step (R P : Nat) (hP : 0 < P) (hR : 1 ≤ R) :
    (R - P + P - 1) / P + 1 = (R + P - 1) / P := by
  have h1 : R + P - 1 = (R - 1) + P := by omega
  rw [h1, Nat.add_div_right _ hP]
  rcases le_or_lt P R with hPR | hRP
  · have h2 : R - P + P - 1 = R - 1 := by omega
    rw [h2]
  · have h2 : R - P + P - 1 = P - 1 := by omega
    rw [h2, Nat.div_eq_of_lt (by omega), Nat.div_eq_of_lt (by omega)]

lemma fetchPagesFuel_spec {α : Type} (L : List α) (P : Nat) (hP : 0 < P) :
    ∀ (fuel start : Nat),
      (L.length - start + P - 1) / P + 1 ≤ fuel →
      fetchPagesFuel L P start fuel
        = (L.drop start, (L.length - start + P - 1) / P + 1)
  | 0, start, h => absurd h (Nat.not_succ_le_zero _)
  | fuel + 1, start, h => by
    show (if (page L start P).isEmpty = true then (([] : List α), 1)
          else (page L start P ++ (fetchPagesFuel L P (start + P) fuel).1,
                (fetchPagesFuel L P (start + P) fuel).2 + 1))
        = (L.drop start, (L.length - start + P - 1) / P + 1)
    by_cases hempty : L.length ≤ start
    · have hdrop : L.drop start = [] := List.drop_eq_nil_of_le hempty
      have hpage : page L start P = [] := by
        unfold page
        rw [hdrop, List.take_nil]
      rw [hpage, hdrop]
      have h0 : L.length - start = 0 := by omega
      rw [h0]
      have h1 : (0 + P - 1) / P = 0 := Nat.div_eq_of_lt (by omega)
      rw [h1, if_pos List.isEmpty_nil]
    · push_neg at hempty
      have hlen : (page L start P).length = min P (L.length - start) := by
        unfold page
        rw [List.length_take, List.length_drop]
      have hpos : 0 < (page L start P).length := by
        rw [hlen]
        omega
      have hne : (page L start P).isEmpty = false := by
        cases hpage2 : page L start P with
        | nil =>
          rw [hpage2] at hpos
          exact absurd hpos (by simp)
        | cons x xs => rfl
      rw [if_neg (by rw [hne]; exact Bool.noConfusion)]
      have key : (L.length - (start + P) + P - 1) / P + 1
          = (L.length - start + P - 1) / P := by
        have h1 : L.length - (start + P) = (L.length - start) - P := by omega
        rw [h1]
        exact ceil_div_step (L.length - start) P hP (by omega)
      have hfuel : (L.length - (start + P) + P - 1) / P + 1 ≤ fuel := by
        rw [key]
        exact Nat.le_of_succ_le_succ h
      rw [fetchPagesFuel_spec L P hP fuel (start + P) hfuel]
      show (page L start P ++ L.drop (start + P), _) = _
      rw [Prod.mk.injEq]
      constructor
      · show (L.drop start).take P ++ L.drop (start + P) = L.drop start
        exact List.drop_take_append_drop L start P
      · rw [key]

/-- **C1 (counterexample)**. With a source holding N = 1 record and page
size P = 2 the loop issues 2 page requests (the slice `[0:2]` is the full
singleton list, the slice `[2:4]` is the empty page), while the claim's
formula `⌈(N+1)/P⌉ = (1+1+2-1)/2` predicts 1 request. -/
theorem c1_pagination_counterexample :
    (["a"] : List String).length = 1 ∧
    fetchAll (["a"] : List String) 2 = (["a"], 2) ∧
    (1 + 1 + 2 - 1) / 2 = 1 ∧ (2 : Nat) ≠ 1 := by decide

/-- **C1 (amended)**. For every record list `L` (N = `L.length` records)
and positive page size `P`, the fetch loop issues exactly `⌈N/P⌉ + 1`
page requests (the final one returning the empty page on which it
terminates) and returns exactly the N records in source order,
concatenated in request order with per-page order preserved. -/
theorem c1_pagination_amended {α : Type} (L : List α) (P : Nat)
    (hP : 0 < P) :
    fetchAll L P = (L, (L.length + P - 1) / P + 1) := by
  have hdiv : (L.length + P - 1) / P < L.length + 1 := by
    rw [Nat.div_lt_iff_lt_mul hP]
    have hmul : L.length ≤ L.length * P := Nat.le_mul_of_pos_right _ hP
    have hd : (L.length + 1) * P = L.length * P + P := by ring
    omega
  have hfuel : (L.length - 0 + P - 1) / P + 1 ≤ L.length + 1 := by
    rw [Nat.sub_zero]
    omega
  show fetchPagesFuel L P 0 (L.length + 1) = _
  rw [fetchPagesFuel_spec L P hP (L.length + 1) 0 hfuel, List.drop_zero,
      Nat.sub_zero]

/-- Witness for C1 (amended) at N = 3 records, P = 2: the loop returns
all three records in 3 requests (pages of 2, 1, 0 records). -/
theorem c1_pagination_amended_witness :
    (0 : Nat) < 2 ∧
    fetchAll (["a", "b", "c"] : List String) 2
      = (["a", "b", "c"],
         ((["a", "b", "c"] : List String).length + 2 - 1) / 2 + 1) :=
  ⟨by decide, c1_pagination_amended ["a", "b", "c"] 2 (by decide)⟩

/-- **C4 (counterexample)**. A response with the successful (2xx) status
201 nevertheless raises: `api_request` treats only status 200 as
success. -/
theorem c4_http_status_counterexample :
    ((200 : Nat) ≤ 201 ∧ (201 : Nat) < 300) ∧
    apiRequestResponse
        { status_code := 201, text := "created", body := (0 : Nat) }
      = .error { status_code := 201, text := "created" } :=
  ⟨by decide, rfl⟩

/-- **C4 (amended)**. Every HTTP response with a status other than 200
aborts the fetch by raising an `ApiException` carrying the response's
status code and body, with no retry (the request is issued once and the
exception propagates); a 200 response does not raise and its JSON body is
returned.  In particular every non-2xx response aborts, but so does any
2xx response other than 200. -/
theorem c4_http_status_amended {α : Type} (resp : HttpResponse α) :
    (resp.status_code = 200 → apiRequestResponse resp = .ok resp.body) ∧
    (resp.status_code ≠ 200 →
      apiRequestResponse resp =
        .error { status_code := resp.status_code, text := resp.text }) := by
  constructor
  · intro h
    unfold apiRequestResponse
    rw [if_pos h]
  · intro h
    unfold apiRequestResponse
    rw [if_neg h]

/-- Witness for C4 (amended) at a 404 and a 200 response. -/
theorem c4_http_status_amended_witness :
    ((404 : Nat) ≠ 200 ∧
      apiRequestResponse { status_code := 404, text := "nf", body := (0 : Nat) }
        = .error { status_code := 404, text := "nf" }) ∧
    ((200 : Nat) = 200 ∧
      apiRequestResponse { status_code := 200, text := "ok", body := (7 : Nat) }
        = .ok 7) :=
  ⟨⟨by decide,
    (c4_http_status_amended
      { status_code := 404, text := "nf", body := (0 : Nat) }).2 (by decide)⟩,
   ⟨rfl,
    (c4_http_status_amended
      { status_code := 200, text := "ok", body := (7 : Nat) }).1 rfl⟩⟩

end DiigoExport
